import Mathlib

/-!
flood: settings migration and authentication routes

A shallow embedding of `server/models/settings.js` and `server/routes/auth.js`.

JavaScript objects with string keys are association lists of their own
properties, in the order of `Object.keys`. `changedKeys` and the column-width
mapping are plain objects: `key in obj` holds for an own key and for every
property name inherited from `Object.prototype`, and `changedKeys[key]` at an
inherited name is the inherited object. A value used as a key is first turned
into a string (`toPropertyKey`).
-/

namespace Flood

/-! ## server/models/settings.js -/

/-- The table `changedKeys`: legacy torrent property key, current key. -/
def changedKeys : List (String × String) :=
  [ ("downloadRate", "downRate"),
    ("downloadTotal", "downTotal"),
    ("uploadRate", "upRate"),
    ("uploadTotal", "upTotal"),
    ("connectedPeers", "peersConnected"),
    ("totalPeers", "peersTotal"),
    ("connectedSeeds", "seedsConnected"),
    ("totalSeeds", "seedsTotal"),
    ("added", "dateAdded"),
    ("creationDate", "dateCreated"),
    ("trackers", "trackerURIs") ]

/-- The list `removedKeys`. -/
def removedKeys : List String := ["freeDiskSpace"]

/-- The properties a plain object inherits from `Object.prototype`. -/
inductive InheritedName where
  | objConstructor
  | objDefineGetter
  | objDefineSetter
  | objHasOwnProperty
  | objLookupGetter
  | objLookupSetter
  | objIsPrototypeOf
  | objPropertyIsEnumerable
  | objToString
  | objValueOf
  | objProto
  | objToLocaleString
deriving DecidableEq, Repr

/-- The property name under which the object is inherited. -/
def InheritedName.name : InheritedName → String
  | .objConstructor => "constructor"
  | .objDefineGetter => "__defineGetter__"
  | .objDefineSetter => "__defineSetter__"
  | .objHasOwnProperty => "hasOwnProperty"
  | .objLookupGetter => "__lookupGetter__"
  | .objLookupSetter => "__lookupSetter__"
  | .objIsPrototypeOf => "isPrototypeOf"
  | .objPropertyIsEnumerable => "propertyIsEnumerable"
  | .objToString => "toString"
  | .objValueOf => "valueOf"
  | .objProto => "__proto__"
  | .objToLocaleString => "toLocaleString"

/-- Every inherited property. -/
def InheritedName.all : List InheritedName :=
  [ .objConstructor, .objDefineGetter, .objDefineSetter, .objHasOwnProperty,
    .objLookupGetter, .objLookupSetter, .objIsPrototypeOf, .objPropertyIsEnumerable,
    .objToString, .objValueOf, .objProto, .objToLocaleString ]

/-- The inherited property of a plain object under `key`, if there is one. -/
def inheritedName? (key : String) : Option InheritedName :=
  InheritedName.all.find? (fun n => n.name == key)

/-- The string an inherited object turns into when it is used as a key: the
source text of a built-in function, `function toString() { [native code] }`
for `toString`; `constructor` is the function `Object`, `__proto__` is the
object `Object.prototype` itself. -/
def InheritedName.toPropertyKey : InheritedName → String
  | .objProto => "[object Object]"
  | .objConstructor => "function Object() \x7b [native code] \x7d"
  | n => "function " ++ n.name ++ "() \x7b [native code] \x7d"

/-- A value of `sortTorrents.property` or of the `id` of a detail item: a
string, or an object inherited by `changedKeys`, which lines 36 and 46 can
store there. Equality is `===`. -/
inductive JsValue where
  | str (s : String)
  | inherited (n : InheritedName)
deriving DecidableEq, Repr

/-- The property key a value stands for in `value in obj` and `obj[value]`. -/
def JsValue.toPropertyKey : JsValue → String
  | .str s => s
  | .inherited n => n.toPropertyKey

/-- The test `removedKeys.includes(value)`. -/
def JsValue.isRemoved : JsValue → Bool
  | .str s => removedKeys.contains s
  | .inherited _ => false

/-- The value `changedKeys[key]` when `key in changedKeys` holds, `none` when it
does not: the own entry of the table, else the inherited property. -/
def changedKeysGet (key : String) : Option JsValue :=
  match changedKeys.lookup key with
  | some newKey => some (.str newKey)
  | none => (inheritedName? key).map JsValue.inherited

/-- The value of `settings.sortTorrents`: the `property` field and whatever else it carries. -/
structure SortTorrents (σ : Type) where
  property : JsValue
  rest : σ
deriving DecidableEq, Repr

/-- An element of `settings.torrentDetails`: the `id` field and whatever else it carries. -/
structure DetailItem (α : Type) where
  id : JsValue
  rest : α
deriving DecidableEq, Repr

/-- The stored settings object handed to `transformLegacyKeys`; a field that is
not set is `none`, `others` stands for every other setting. -/
structure Settings (σ α β ρ : Type) where
  sortTorrents : Option (SortTorrents σ)
  torrentDetails : Option (List (DetailItem α))
  torrentListColumnWidths : Option (List (String × β))
  others : ρ
deriving DecidableEq, Repr

variable {σ α β ρ : Type}

/-- Lines 35-37: replace `sortTorrents.property` by `changedKeys[property]` when
`property in changedKeys`. -/
def transformSortTorrents (s : SortTorrents σ) : SortTorrents σ :=
  match changedKeysGet s.property.toPropertyKey with
  | some newKey => { s with property := newKey }
  | none => s

/-- Lines 41-47: the first `if` of the `reduce` callback. `details` is the array
`settings.torrentDetails` as it stands when `detailItem` is processed. -/
def renameDetailItem (details : List (DetailItem α)) (detailItem : DetailItem α) :
    DetailItem α :=
  match changedKeysGet detailItem.id.toPropertyKey with
  | some newKey =>
    if details.any (fun subDetailItem => subDetailItem.id == newKey) then detailItem
    else { detailItem with id := newKey }
  | none => detailItem

/-- Lines 41-53, the callback of `reduce` at index `i`. The state is the array
`settings.torrentDetails` (its items are mutated in place, the array itself is
only replaced once `reduce` has returned) and the accumulator. -/
def detailCallback (st : List (DetailItem α) × List (DetailItem α)) (i : Nat) :
    List (DetailItem α) × List (DetailItem α) :=
  match st.1[i]? with
  | none => st
  | some detailItem =>
    let detailItem1 := renameDetailItem st.1 detailItem
    (st.1.set i detailItem1,
      if detailItem1.id.isRemoved then st.2 else st.2 ++ [detailItem1])

/-- Lines 40-54: `settings.torrentDetails.reduce(callback, [])`, returning the
array after the in-place mutations and the accumulator. -/
def reduceTorrentDetails (details : List (DetailItem α)) :
    List (DetailItem α) × List (DetailItem α) :=
  (List.range details.length).foldl detailCallback (details, [])

/-- The new value of `settings.torrentDetails`. -/
def transformTorrentDetails (details : List (DetailItem α)) : List (DetailItem α) :=
  (reduceTorrentDetails details).2

/-- The test `key in obj` on a plain object: an own or an inherited property. -/
def hasProperty (obj : List (String × β)) (key : String) : Bool :=
  (obj.lookup key).isSome || (inheritedName? key).isSome

/-- The assignment `obj[key] = value` for a key that is no inherited name: the
own property is replaced, or added after the others. -/
def assignKey (obj : List (String × β)) (key : String) (value : β) : List (String × β) :=
  if (obj.lookup key).isSome then obj.map (fun p => if p.1 == key then (key, value) else p)
  else obj ++ [(key, value)]

/-- Lines 58-62, the callback of `forEach` for one `columnID`, an own key of the
mapping: the key written is `changedKeys[columnID]` turned into a string. -/
def widthCallback (widths : List (String × β)) (columnID : String) : List (String × β) :=
  match changedKeysGet columnID with
  | some newKey =>
    if hasProperty widths newKey.toPropertyKey then widths
    else
      match widths.lookup columnID with
      | some value => assignKey widths newKey.toPropertyKey value
      | none => widths
  | none => widths

/-- Lines 58-62: `Object.keys(widths).forEach(callback)`; the keys are read once, before the loop. -/
def transformColumnWidths (widths : List (String × β)) : List (String × β) :=
  (widths.map Prod.fst).foldl widthCallback widths

/-- The function `transformLegacyKeys`. -/
def transformLegacyKeys (settings : Settings σ α β ρ) : Settings σ α β ρ :=
  { sortTorrents := settings.sortTorrents.map transformSortTorrents
    torrentDetails := settings.torrentDetails.map transformTorrentDetails
    torrentListColumnWidths := settings.torrentListColumnWidths.map transformColumnWidths
    others := settings.others }

/-- The loop of `reduce` seen from the item being processed: `pre` holds the
items already processed (as mutated), `todo` the items still to come. Used only
to reason about `reduceTorrentDetails`. -/
def processDetails (pre acc : List (DetailItem α)) :
    List (DetailItem α) → List (DetailItem α) × List (DetailItem α)
  | [] => (pre, acc)
  | x :: post =>
    let x1 := renameDetailItem (pre ++ x :: post) x
    processDetails (pre ++ [x1]) (if x1.id.isRemoved then acc else acc ++ [x1]) post

/-! ### `settings.set`

`getDb(user)` is a nedb `Datastore` (lines 1 and 75): `update` queues the
operation and returns, and the callback it was given runs after the code that
called `update` has returned. `update payload` is what that callback receives
for the payload, an error (or none) and the `docs` value. -/

/-- The arguments `(err, docs)` of the callback of `update`. -/
structure UpdateResult (ε δ : Type) where
  err : Option ε
  docs : δ
deriving DecidableEq, Repr

/-- The second argument of `settings.set`: one payload or an array of payloads. -/
inductive Payloads (π : Type) where
  | single (payload : π)
  | array (payloads : List π)
deriving DecidableEq, Repr

/-- How `settings.set` calls `callback`: `callback(null, error)`,
`callback(docsResponse)` or `callback()`. -/
inductive SetCallback (ε δ : Type) where
  | failure (error : ε)
  | success (docsResponse : List δ)
  | noArguments
deriving DecidableEq, Repr

/-- What a call of `settings.set` leaves behind: how `callback` was called
(with `docsResponse` as it was at that moment), and `docsResponse` and `error`
once the queued callbacks of `update` have run. -/
structure SetRun (ε δ : Type) where
  callback : SetCallback ε δ
  docsResponse : List δ
  error : Option ε
deriving DecidableEq, Repr

/-- Lines 113-115: a payload that is not an array becomes a one-element array. -/
def Payloads.toList {π : Type} : Payloads π → List π
  | .single payload => [payload]
  | .array payloads => payloads

/-- Lines 120-125, the callback of one update: the state is `docsResponse` and `error`. -/
def setCallback {π ε δ : Type} (update : π → UpdateResult ε δ)
    (st : List δ × Option ε) (payload : π) : List δ × Option ε :=
  let docsResponse := st.1 ++ [(update payload).docs]
  match (update payload).err with
  | some err => (docsResponse, some err)
  | none => (docsResponse, st.2)

/-- The function `settings.set` (lines 110-135). The loop of line 119 queues one
update per payload; lines 127-131 run before any of their callbacks, with
`docsResponse` empty and `error` not set; the callbacks run afterwards, in the
order of the batch. -/
def settingsSet {π ε δ : Type} (update : π → UpdateResult ε δ) (payloads : Payloads π) :
    SetRun ε δ :=
  let payloads1 : List π := payloads.toList
  if payloads1.length ≠ 0 then
    let atLine127 : List δ × Option ε := ([], none)
    let afterCallbacks := payloads1.foldl (setCallback update) atLine127
    { callback :=
        match atLine127 with
        | (_, some error) => .failure error
        | (docsResponse, none) => .success docsResponse
      docsResponse := afterCallbacks.1
      error := afterCallbacks.2 }
  else { callback := .noArguments, docsResponse := [], error := none }

/-! ## server/routes/auth.js

Request bodies are the ones `authValidation` lets through: every field is
optional, `none` is a field that is not set. The user directory (`Users`),
`passport`, `services` and `ajaxUtil` are not part of these two files: their
results are parameters, their calls are recorded as effects. -/

/-- A user record, as `req.user` and the directory carry it. -/
structure User where
  _id : String
  username : String
  isAdmin : Bool
  host : Option String
  port : Option String
  socketPath : Option String
deriving DecidableEq, Repr

/-- The parts of `config` the routes read. -/
structure Config where
  disableUsersAndAuth : Bool
  secret : String
deriving DecidableEq, Repr

/-- What the routes take from outside: the configuration, `jwt.sign` (payload
username, secret, `expiresIn`), the clock `Date.now()` in milliseconds and
`Users.getConfigUser()`. -/
structure Env where
  config : Config
  sign : Option String → String → Nat → String
  now : Nat
  configUser : User

/-- A cookie set by `res.cookie(name, value, options)`; `expires` in milliseconds. -/
structure Cookie where
  name : String
  value : String
  expires : Nat
  httpOnly : Bool
  sameSite : String
deriving DecidableEq, Repr

/-- The bodies the routes send. -/
inductive Body where
  | authSuccess (success : Bool) (token : String) (username : Option String)
      (isAdmin : Option Bool)
  | message (message : String)
  | verify (initialUser : Option Bool) (username : Option String) (isAdmin : Option Bool)
  | text (text : String)
  | ajaxUtil (error : Option String)
  | empty
deriving DecidableEq, Repr

/-- The response object `res`; `body` is `none` until something is sent. -/
structure Response where
  status : Nat := 200
  cookies : List Cookie := []
  body : Option Body := none
deriving DecidableEq, Repr

/-- The body of a request, as `authValidation` describes it. -/
structure RequestBody where
  username : Option String := none
  password : Option String := none
  host : Option String := none
  port : Option String := none
  socketPath : Option String := none
  isAdmin : Option Bool := none
deriving DecidableEq, Repr

/-- The request `req`: the token it presents, `req.params.username`, the body,
and the fields the middleware sets (`req.user`, `req.initialUser`). -/
structure Request where
  token : Option String := none
  paramsUsername : String := ""
  body : RequestBody := {}
  user : Option User := none
  initialUser : Option Bool := none
deriving DecidableEq, Repr

/-- A field of the object handed to `Users.updateUser`: not set, `null`, or a value. -/
inductive Field (τ : Type) where
  | absent
  | null
  | value (v : τ)
deriving DecidableEq, Repr

/-- The object `userPatch`: the request body after lines 184-189. -/
structure UserPatch where
  username : Field String
  password : Field String
  host : Field String
  port : Field String
  socketPath : Field String
  isAdmin : Field Bool
deriving DecidableEq, Repr

/-- The argument of `Users.createUser`. -/
structure NewUser where
  username : Option String
  password : Option String
  host : Option String
  port : Option String
  socketPath : Option String
  isAdmin : Option Bool
deriving DecidableEq, Repr

/-- Calls into the directory and the service layer, in the order they are made. -/
inductive Effect where
  | createUser (user : NewUser)
  | removeUser (username : String)
  | destroyUserServices (user : Option User)
  | updateUser (username : String) (userPatch : UserPatch)
  | lookupUser (username : String)
  | updateUserServices (user : User)
deriving DecidableEq, Repr

/-- What a middleware does with a request: call `next()`, send a response, or
neither (the request is left unanswered). -/
inductive Flow where
  | next (req : Request)
  | respond (res : Response)
  | pending
deriving DecidableEq, Repr

/-- What a route does: the calls it makes and the response it sends, `none`
when it never sends one. -/
structure Outcome where
  effects : List Effect := []
  response : Option Response := none
deriving DecidableEq, Repr

/-- The constant `failedLoginResponse`. -/
def failedLoginResponse : String := "Failed login."

/-- The function `setAuthToken` (lines 17-34). -/
def setAuthToken (env : Env) (res : Response) (username : Option String)
    (isAdmin : Option Bool) : Response :=
  let expirationSeconds := 60 * 60 * 24 * 7
  let cookieExpiration := env.now + expirationSeconds * 1000
  let token := env.sign username env.config.secret expirationSeconds
  { res with
    cookies := res.cookies ++
      [{ name := "jwt", value := token, expires := cookieExpiration, httpOnly := true,
         sameSite := "Strict" }]
    body := some (.authSuccess true ("JWT " ++ token) username isAdmin) }

/-- The arguments `(isMatch, isAdmin, err)` of the callback of
`Users.comparePassword`; `none` is `null` or `undefined`, `err` is an error object. -/
structure CompareResult where
  isMatch : Option Bool
  isAdmin : Option Bool
  err : Option String
deriving DecidableEq, Repr

/-- The object `credentials` of line 64. -/
structure Credentials where
  password : Option String
  username : Option String
deriving DecidableEq, Repr

/-- What `Users.comparePassword` reports: a match with the directory's admin
flag, a non-match (wrong password), or a lookup failure. -/
inductive CompareOutcome where
  | matched (isAdmin : Bool)
  | notMatched
  | lookupFailure (err : String)
deriving DecidableEq, Repr

/-- Modelled from the spec: how `Users.comparePassword`, of the user directory
that is not among these files, hands its report to the callback
`(isMatch, isAdmin, err)`. A match arrives as `isMatch = true` with the admin
flag and no error. A non-match is not an error and arrives with `isMatch`
`null`, the value the guard of line 70 tests for and whose branch line 74
names "Incorrect username or password"; a lookup failure arrives with
`isMatch` `null` and the error. -/
def CompareOutcome.callbackArguments : CompareOutcome → CompareResult
  | .matched isAdmin => { isMatch := some true, isAdmin := some isAdmin, err := none }
  | .notMatched => { isMatch := none, isAdmin := some false, err := none }
  | .lookupFailure err => { isMatch := none, isAdmin := none, err := some err }

/-- The route `POST /authenticate` (lines 60-79); `comparePassword` gives what
`Users.comparePassword` passes to its callback. -/
def postAuthenticate (env : Env) (comparePassword : Credentials → CompareResult)
    (req : Request) : Response :=
  if env.config.disableUsersAndAuth then
    setAuthToken env {} (some env.configUser._id) (some true)
  else
    let credentials : Credentials :=
      { password := req.body.password, username := req.body.username }
    let r := comparePassword credentials
    if r.isMatch.isSome && r.err.isNone then
      setAuthToken env {} credentials.username r.isAdmin
    else
      { status := 401, body := some (.message failedLoginResponse) }

/-- Modelled from the spec: `Users.initialUserGate`, of the user directory that
is not among these files. It runs `handleInitialUser` when zero user records
exist and `handleSubsequentUser` otherwise. -/
def initialUserGate {γ : Type} (users : List User) (handleInitialUser : γ)
    (handleSubsequentUser : γ) : γ :=
  if users.isEmpty then handleInitialUser else handleSubsequentUser

/-- Modelled from the spec: the middleware `passport.authenticate('jwt', ...)`
applied to `(req, res, next)`. `verifyToken` is the token verifier together with
the lookup of the token's user: a request whose token verifies goes on with
`req.user` set, a missing or invalid token is rejected before the handler. -/
def passportAuthenticateJwt (verifyToken : String → Option User) (req : Request) : Flow :=
  match req.token.bind verifyToken with
  | some user => .next { req with user := some user }
  | none => .respond { status := 401, body := some (.text "Unauthorized") }

/-- The middleware `router.use('/register', ...)` (lines 82-93). In
`handleSubsequentUser` the source builds the passport middleware and does not
apply it to `(req, res, next)`: neither `next()` nor a response follows. -/
def registerGate (users : List User) (verifyToken : String → Option User)
    (req : Request) : Flow :=
  initialUserGate users
    (Flow.next req)
    (let _middleware : Request → Flow := passportAuthenticateJwt verifyToken
     Flow.pending)

/-- The route `POST /register` (lines 95-121); `createUserError` is the error
`Users.createUser` passes to its callback. -/
def postRegister (env : Env) (createUserError : NewUser → Option String)
    (req : Request) : Outcome :=
  if env.config.disableUsersAndAuth then
    { response := some { status := 404, body := some (.text "Not found") } }
  else
    let user : NewUser :=
      { username := req.body.username, password := req.body.password,
        host := req.body.host, port := req.body.port,
        socketPath := req.body.socketPath, isAdmin := some true }
    { effects := [.createUser user]
      response :=
        match createUserError user with
        | some error => some { body := some (.ajaxUtil (some error)) }
        | none => some (setAuthToken env {} req.body.username (some true)) }

/-- A request to `POST /register`: the middleware, then the route. -/
def registerRequest (env : Env) (users : List User) (verifyToken : String → Option User)
    (createUserError : NewUser → Option String) (req : Request) : Outcome :=
  match registerGate users verifyToken req with
  | .next req1 => postRegister env createUserError req1
  | .respond res => { response := some res }
  | .pending => { response := none }

/-- The middleware `router.use('/verify', ...)` (lines 124-138). -/
def verifyGate (env : Env) (users : List User) (verifyToken : String → Option User)
    (req : Request) : Flow :=
  if env.config.disableUsersAndAuth then
    .respond (setAuthToken env {} (some env.configUser._id) (some true))
  else
    initialUserGate users
      (Flow.next { req with initialUser := some true })
      (passportAuthenticateJwt verifyToken { req with initialUser := some false })

/-- The route `GET /verify` (lines 140-146). -/
def getVerify (req : Request) : Response :=
  { body := some (.verify req.initialUser
      (req.user.map (fun u => u.username)) (req.user.map (fun u => u.isAdmin))) }

/-- A request to `GET /verify`: the middleware, then the route. -/
def verifyRequest (env : Env) (users : List User) (verifyToken : String → Option User)
    (req : Request) : Outcome :=
  match verifyGate env users verifyToken req with
  | .next req1 => { response := some (getVerify req1) }
  | .respond res => { response := some res }
  | .pending => { response := none }

/-- The middleware `router.use('/users', ...)` of lines 155-169. -/
def usersGate (env : Env) (req : Request) : Flow :=
  if env.config.disableUsersAndAuth then
    .respond { status := 404, body := some (.text "Not found") }
  else
    match req.user with
    | some user =>
      if user.isAdmin then .next req
      else .respond { status := 401, body := some (.text "Not authorized") }
    | none => .respond { status := 401, body := some (.text "Not authorized") }

/-- The route `DELETE /users/:username` (lines 175-178); `removeUserError` is
the error `Users.removeUser` passes to its callback. -/
def deleteUser (removeUserError : String → Option String) (req : Request) : Outcome :=
  { effects := [.removeUser req.paramsUsername, .destroyUserServices req.user]
    response := some { body := some (.ajaxUtil (removeUserError req.paramsUsername)) } }

/-- A request to `DELETE /users/:username` that has passed the passport
middleware of lines 58 and 149 (`req.user` is the requester): the admin check,
then the route. -/
def deleteUserRequest (env : Env) (removeUserError : String → Option String)
    (req : Request) : Outcome :=
  match usersGate env req with
  | .next req1 => deleteUser removeUserError req1
  | .respond res => { response := some res }
  | .pending => { response := none }

/-- A body field as a field of `userPatch`. -/
def Field.ofOption {τ : Type} : Option τ → Field τ
  | some v => .value v
  | none => .absent

/-- Lines 182-189: `userPatch` is the request body, then `socketPath` is set to
`null` when the body has no (non-empty) `socketPath`, else `host` and `port` are. -/
def userPatchOf (body : RequestBody) : UserPatch :=
  let userPatch : UserPatch :=
    { username := Field.ofOption body.username, password := Field.ofOption body.password,
      host := Field.ofOption body.host, port := Field.ofOption body.port,
      socketPath := Field.ofOption body.socketPath, isAdmin := Field.ofOption body.isAdmin }
  match body.socketPath with
  | none => { userPatch with socketPath := .null }
  | some path =>
    if path = "" then { userPatch with socketPath := .null }
    else { userPatch with host := .null, port := .null }

/-- The route `PATCH /users/:username` (lines 180-198); `lookupUser` is what
`Users.lookupUser` passes to its callback after the update, an error or the user.
On an error line 193 calls `req.status`, which a request does not have: nothing is sent. -/
def patchUser (lookupUser : String → Except String User) (req : Request) : Outcome :=
  let username := req.paramsUsername
  let userPatch := userPatchOf req.body
  match lookupUser username with
  | .error _ => { effects := [.updateUser username userPatch, .lookupUser username] }
  | .ok user =>
    { effects := [.updateUser username userPatch, .lookupUser username,
        .updateUserServices user]
      response := some { body := some .empty } }

/-- Modelled from the spec: the update `Users.updateUser` makes to a stored
record, of the user directory that is not among these files. A field the patch
does not set is kept, a `null` field is cleared, a value is stored. -/
def applyUserPatch (user : User) (userPatch : UserPatch) : User :=
  let upd (old : Option String) : Field String → Option String
    | .absent => old
    | .null => none
    | .value v => some v
  { user with
    host := upd user.host userPatch.host
    port := upd user.port userPatch.port
    socketPath := upd user.socketPath userPatch.socketPath
    isAdmin :=
      match userPatch.isAdmin with
      | .value b => b
      | _ => user.isAdmin }

/-- The directory's record of `username`, if any. -/
def findUser (users : List User) (username : String) : Option User :=
  users.find? (fun u => u.username == username)

/-- Exactly one of the two connection forms is populated. -/
def User.oneConnectionForm (user : User) : Bool :=
  (user.host.isSome && user.port.isSome && user.socketPath.isNone) ||
  (user.host.isNone && user.port.isNone && user.socketPath.isSome)

/-! ### Concrete inputs used by the closed statements below -/

/-- An enforced-mode environment with a fixed clock and a transparent signer. -/
def exampleEnv : Env :=
  { config := { disableUsersAndAuth := false, secret := "s3cret" }
    sign := fun username _ _ => "tok." ++ username.getD ""
    now := 1000
    configUser := { _id := "_config", username := "_config", isAdmin := true,
                    host := none, port := none, socketPath := none } }

/-- An admin user reached over host and port. -/
def alice : User :=
  { _id := "alice", username := "alice", isAdmin := true,
    host := some "localhost", port := some "5000", socketPath := none }

/-- A user reached over a socket. -/
def bob : User :=
  { _id := "bob", username := "bob", isAdmin := false,
    host := none, port := none, socketPath := some "/tmp/rtorrent.sock" }

/-- A datastore whose upsert of entry 1 fails with `e1` and every other succeeds. -/
def exampleUpdate (payload : Nat) : UpdateResult String Nat :=
  if payload = 1 then { err := some "e1", docs := payload }
  else { err := none, docs := payload }

/-- A verifier that accepts exactly the token of `alice`. -/
def exampleVerifyToken (token : String) : Option User :=
  if token = "tok.alice" then some alice else none

/-! ## Lemmas on the tables -/

theorem lookup_mem {γ : Type} (k : String) (v : γ) (l : List (String × γ))
    (h : l.lookup k = some v) : (k, v) ∈ l := by
  induction l with
  | nil => simp at h
  | cons p t ih =>
    obtain ⟨a, b⟩ := p
    rw [List.lookup_cons] at h
    by_cases hk : k = a
    · subst hk
      simp at h
      simp [h]
    · have : (k == a) = false := by simpa using hk
      rw [this] at h
      exact List.mem_cons_of_mem _ (ih h)

theorem changedKeysGet_cases (k : String) (v : JsValue) (h : changedKeysGet k = some v) :
    (∃ newKey, (k, newKey) ∈ changedKeys ∧ v = .str newKey) ∨
    (∃ n, inheritedName? k = some n ∧ v = .inherited n) := by
  unfold changedKeysGet at h
  cases hl : changedKeys.lookup k with
  | some newKey =>
    rw [hl] at h
    exact Or.inl ⟨newKey, lookup_mem k newKey changedKeys hl, by simpa using h.symm⟩
  | none =>
    rw [hl] at h
    cases hn : inheritedName? k with
    | none => simp [hn] at h
    | some n => exact Or.inr ⟨n, rfl, by simpa [hn] using h.symm⟩

/-- No value of the table, own or inherited, is in turn a key of the table. -/
theorem changedKeysGet_value_key (k : String) (v : JsValue) (h : changedKeysGet k = some v) :
    changedKeysGet v.toPropertyKey = none := by
  rcases changedKeysGet_cases k v h with ⟨newKey, hm, rfl⟩ | ⟨n, _, rfl⟩
  · have h1 : ∀ p ∈ changedKeys, changedKeysGet (JsValue.str p.2).toPropertyKey = none := by
      decide
    exact h1 _ hm
  · cases n <;> decide

theorem changedKeysGet_value_not_removed (k : String) (v : JsValue)
    (h : changedKeysGet k = some v) : v.isRemoved = false := by
  rcases changedKeysGet_cases k v h with ⟨newKey, hm, rfl⟩ | ⟨n, _, rfl⟩
  · have h1 : ∀ p ∈ changedKeys, (JsValue.str p.2).isRemoved = false := by decide
    exact h1 _ hm
  · rfl

theorem changedKeysGet_none (k : String) (h : changedKeysGet k = none) :
    changedKeys.lookup k = none ∧ inheritedName? k = none := by
  unfold changedKeysGet at h
  cases hl : changedKeys.lookup k with
  | some newKey => simp [hl] at h
  | none => exact ⟨rfl, by simpa [hl] using h⟩

theorem changedKeysGet_value_not_inherited (k : String) (v : JsValue)
    (h : changedKeysGet k = some v) : inheritedName? v.toPropertyKey = none :=
  (changedKeysGet_none _ (changedKeysGet_value_key k v h)).2

/-! ## Lemmas on the `torrentDetails` loop -/

theorem getElem?_append_length (pre post : List α) (x : α) :
    (pre ++ x :: post)[pre.length]? = some x := by
  induction pre with
  | nil => simp
  | cons a t ih => simpa using ih

theorem set_append_length (pre post : List α) (x y : α) :
    (pre ++ x :: post).set pre.length y = pre ++ y :: post := by
  induction pre with
  | nil => simp
  | cons a t ih => simp [ih]

theorem detailCallback_at (pre post acc : List (DetailItem α)) (x : DetailItem α) :
    detailCallback (pre ++ x :: post, acc) pre.length =
      (pre ++ renameDetailItem (pre ++ x :: post) x :: post,
        if (renameDetailItem (pre ++ x :: post) x).id.isRemoved then acc
        else acc ++ [renameDetailItem (pre ++ x :: post) x]) := by
  simp only [detailCallback, getElem?_append_length, set_append_length]

theorem foldl_detailCallback (todo pre acc : List (DetailItem α)) :
    (List.range' pre.length todo.length).foldl detailCallback (pre ++ todo, acc)
      = processDetails pre acc todo := by
  induction todo generalizing pre acc with
  | nil => simp [processDetails]
  | cons x post ih =>
    simp only [List.length_cons, List.range'_succ, List.foldl_cons, detailCallback_at,
      processDetails]
    have := ih (pre ++ [renameDetailItem (pre ++ x :: post) x])
      (if (renameDetailItem (pre ++ x :: post) x).id.isRemoved then acc
        else acc ++ [renameDetailItem (pre ++ x :: post) x])
    simpa using this

theorem reduceTorrentDetails_eq (details : List (DetailItem α)) :
    reduceTorrentDetails details = processDetails [] [] details := by
  have := foldl_detailCallback details [] []
  simpa [reduceTorrentDetails, List.range_eq_range'] using this

theorem processDetails_spec (todo pre acc : List (DetailItem α)) :
    ∃ m : List (DetailItem α), m.length = todo.length ∧
      processDetails pre acc todo
        = (pre ++ m, acc ++ m.filter (fun it => !it.id.isRemoved)) ∧
      ∀ j x, todo[j]? = some x →
        m[j]? = some (renameDetailItem (pre ++ (m.take j ++ todo.drop j)) x) := by
  induction todo generalizing pre acc with
  | nil => exact ⟨[], rfl, by simp [processDetails], by simp⟩
  | cons x post ih =>
    obtain ⟨m, hlen, heq, hidx⟩ := ih (pre ++ [renameDetailItem (pre ++ x :: post) x])
      (if (renameDetailItem (pre ++ x :: post) x).id.isRemoved then acc
        else acc ++ [renameDetailItem (pre ++ x :: post) x])
    refine ⟨renameDetailItem (pre ++ x :: post) x :: m, by simp [hlen], ?_, ?_⟩
    · simp only [processDetails, heq, List.filter_cons]
      by_cases hr : (renameDetailItem (pre ++ x :: post) x).id.isRemoved = true
      · simp [hr]
      · simp [hr]
    · intro j y hj
      cases j with
      | zero =>
        simp at hj
        subst hj
        simp
      | succ j =>
        simp at hj
        have := hidx j y hj
        simpa using this

theorem renameDetailItem_fixed (cur : List (DetailItem α)) (x : DetailItem α)
    (h : ∀ newKey, changedKeysGet x.id.toPropertyKey = some newKey →
      ∃ it ∈ cur, it.id = newKey) :
    renameDetailItem cur x = x := by
  unfold renameDetailItem
  split
  · next newKey hk =>
    obtain ⟨it, hit, hid⟩ := h newKey hk
    have : cur.any (fun subDetailItem => subDetailItem.id == newKey) = true :=
      List.any_eq_true.mpr ⟨it, hit, by simp [hid]⟩
    simp [this]
  · rfl

theorem processDetails_fixed (todo pre acc : List (DetailItem α))
    (hP : ∀ x ∈ todo, ∀ newKey, changedKeysGet x.id.toPropertyKey = some newKey →
      ∃ it ∈ pre ++ todo, it.id = newKey)
    (hR : ∀ x ∈ todo, x.id.isRemoved = false) :
    processDetails pre acc todo = (pre ++ todo, acc ++ todo) := by
  induction todo generalizing pre acc with
  | nil => simp [processDetails]
  | cons x post ih =>
    have hx : renameDetailItem (pre ++ x :: post) x = x :=
      renameDetailItem_fixed _ _ (hP x (List.mem_cons_self _ _))
    simp only [processDetails, hx, hR x (List.mem_cons_self _ _)]
    rw [ih]
    · simp
    · intro y hy newKey hk
      obtain ⟨it, hit, hid⟩ := hP y (List.mem_cons_of_mem _ hy) newKey hk
      exact ⟨it, by simpa using hit, hid⟩
    · intro y hy
      exact hR y (List.mem_cons_of_mem _ hy)

theorem reduceTorrentDetails_spec (details : List (DetailItem α)) :
    (reduceTorrentDetails details).1.length = details.length ∧
    (reduceTorrentDetails details).2
      = (reduceTorrentDetails details).1.filter (fun it => !it.id.isRemoved) ∧
    ∀ j x, details[j]? = some x →
      (reduceTorrentDetails details).1[j]? = some (renameDetailItem
        ((reduceTorrentDetails details).1.take j ++ details.drop j) x) := by
  obtain ⟨m, hlen, heq, hidx⟩ := processDetails_spec details [] []
  rw [reduceTorrentDetails_eq, heq]
  refine ⟨by simpa using hlen, by simp, ?_⟩
  intro j x hj
  simpa using hidx j x hj

theorem renameDetailItem_cases (cur : List (DetailItem α)) (x : DetailItem α) :
    (renameDetailItem cur x).rest = x.rest ∧
    (∀ newKey, changedKeysGet x.id.toPropertyKey = some newKey →
      ((∀ it ∈ cur, it.id ≠ newKey) → (renameDetailItem cur x).id = newKey) ∧
      ((∃ it ∈ cur, it.id = newKey) → renameDetailItem cur x = x)) ∧
    (changedKeysGet x.id.toPropertyKey = none → renameDetailItem cur x = x) := by
  unfold renameDetailItem
  split
  · next newKey hk =>
    by_cases hany : cur.any (fun subDetailItem => subDetailItem.id == newKey) = true
    · rw [if_pos hany]
      refine ⟨rfl, ?_, fun _ => rfl⟩
      intro k hk2
      have hkk : k = newKey := by simpa [hk] using hk2.symm
      subst hkk
      refine ⟨?_, fun _ => rfl⟩
      intro hno
      obtain ⟨it, hit, hid⟩ := List.any_eq_true.mp hany
      exact absurd (by simpa using hid) (hno it hit)
    · rw [if_neg hany]
      refine ⟨rfl, ?_, fun h => by simp [hk] at h⟩
      intro k hk2
      have hkk : k = newKey := by simpa [hk] using hk2.symm
      subst hkk
      refine ⟨fun _ => rfl, ?_⟩
      rintro ⟨it, hit, hid⟩
      exact absurd (List.any_eq_true.mpr ⟨it, hit, by simp [hid]⟩) hany
  · next hk =>
    refine ⟨rfl, ?_, fun _ => rfl⟩
    intro k hk2
    rw [hk] at hk2
    simp at hk2

theorem transformTorrentDetails_closed (details : List (DetailItem α)) :
    ∀ y ∈ transformTorrentDetails details, ∀ newKey,
      changedKeysGet y.id.toPropertyKey = some newKey →
      ∃ it ∈ transformTorrentDetails details, it.id = newKey := by
  obtain ⟨hlen, hacc, hidx⟩ := reduceTorrentDetails_spec details
  intro y hy newKey hk
  unfold transformTorrentDetails at hy ⊢
  rw [hacc] at hy ⊢
  have hym := (List.mem_filter.mp hy).1
  obtain ⟨i, hi⟩ := List.mem_iff_getElem?.mp hym
  have hilt : i < details.length := by
    rw [← hlen]
    exact (List.getElem?_eq_some_iff.mp hi).1
  have hx : details[i]? = some details[i] := List.getElem?_eq_getElem hilt
  have hyi := hidx i _ hx
  rw [hi] at hyi
  have hyeq : y = renameDetailItem
      ((reduceTorrentDetails details).1.take i ++ details.drop i) details[i] := by
    simpa using hyi
  obtain ⟨_, hleg, hnone⟩ := renameDetailItem_cases
    ((reduceTorrentDetails details).1.take i ++ details.drop i) details[i]
  -- the item kept an id that is a key of the table, so its value is carried by some item
  have hex : ∃ it ∈ (reduceTorrentDetails details).1.take i ++ details.drop i,
      it.id = newKey := by
    cases hl : changedKeysGet details[i].id.toPropertyKey with
    | none =>
      rw [hyeq, hnone hl, hl] at hk
      exact absurd hk (by simp)
    | some n =>
      by_contra hno
      have hall : ∀ it ∈ (reduceTorrentDetails details).1.take i ++ details.drop i,
          it.id ≠ n := by
        intro it hit hid
        have hyx := (hleg n hl).2 ⟨it, hit, hid⟩
        rw [hyeq, hyx, hl] at hk
        have : n = newKey := by simpa using hk
        exact hno ⟨it, hit, this ▸ hid⟩
      have hid := (hleg n hl).1 hall
      rw [hyeq, hid, changedKeysGet_value_key _ _ hl] at hk
      exact absurd hk (by simp)
  obtain ⟨it, hit, hid⟩ := hex
  have hnk : changedKeysGet it.id.toPropertyKey = none := by
    rw [hid]
    exact changedKeysGet_value_key _ _ hk
  have hnr : it.id.isRemoved = false := by
    rw [hid]
    exact changedKeysGet_value_not_removed _ _ hk
  refine ⟨it, List.mem_filter.mpr ⟨?_, by simp [hnr]⟩, hid⟩
  rcases List.mem_append.mp hit with h1 | h2
  · exact List.mem_of_mem_take h1
  · obtain ⟨j, hj⟩ := List.mem_iff_getElem?.mp (List.mem_of_mem_drop h2)
    have hjj := hidx j it hj
    obtain ⟨_, _, hnone2⟩ := renameDetailItem_cases
      ((reduceTorrentDetails details).1.take j ++ details.drop j) it
    rw [hnone2 hnk] at hjj
    exact List.mem_iff_getElem?.mpr ⟨j, hjj⟩

theorem transformTorrentDetails_idem (details : List (DetailItem α)) :
    transformTorrentDetails (transformTorrentDetails details)
      = transformTorrentDetails details := by
  have hR : ∀ x ∈ transformTorrentDetails details, x.id.isRemoved = false := by
    intro x hx
    unfold transformTorrentDetails at hx
    rw [(reduceTorrentDetails_spec details).2.1] at hx
    simpa using (List.mem_filter.mp hx).2
  have := processDetails_fixed (transformTorrentDetails details) [] []
    (by simpa using transformTorrentDetails_closed details) hR
  conv_lhs => rw [transformTorrentDetails, reduceTorrentDetails_eq, this]
  simp

/-! ## Lemmas on the `torrentListColumnWidths` loop -/

theorem lookup_isSome_of_mem_keys {γ : Type} (k : String) (l : List (String × γ))
    (h : k ∈ l.map Prod.fst) : (l.lookup k).isSome = true := by
  induction l with
  | nil => simp at h
  | cons p t ih =>
    obtain ⟨a, b⟩ := p
    rw [List.lookup_cons]
    by_cases hk : k = a
    · subst hk
      simp
    · have hb : (k == a) = false := by simpa using hk
      rw [hb]
      have : k ∈ t.map Prod.fst := by
        simp only [List.map_cons, List.mem_cons] at h
        rcases h with h | h
        · exact absurd h hk
        · exact h
      exact ih this

/-- For a value of the table, `value in widths` is the test for an own key. -/
theorem hasProperty_value (w : List (String × β)) (c : String) (newKey : JsValue)
    (hc : changedKeysGet c = some newKey) :
    hasProperty w newKey.toPropertyKey = (w.lookup newKey.toPropertyKey).isSome := by
  simp [hasProperty, changedKeysGet_value_not_inherited c newKey hc]

theorem widthCallback_cases (w : List (String × β)) (c : String) :
    widthCallback w c = w ∨
    ∃ newKey v, changedKeysGet c = some newKey ∧ w.lookup newKey.toPropertyKey = none ∧
      w.lookup c = some v ∧ widthCallback w c = w ++ [(newKey.toPropertyKey, v)] := by
  cases hc : changedKeysGet c with
  | none => exact Or.inl (by simp [widthCallback, hc])
  | some newKey =>
    have hp := hasProperty_value w c newKey hc
    cases hn : w.lookup newKey.toPropertyKey with
    | some u => exact Or.inl (by simp [widthCallback, hc, hp, hn])
    | none =>
      cases hv : w.lookup c with
      | none => exact Or.inl (by simp [widthCallback, hc, hp, hn, hv])
      | some v =>
        exact Or.inr ⟨newKey, v, rfl, hn, rfl,
          by simp [widthCallback, hc, hp, hn, hv, assignKey]⟩

theorem widthCallback_adds (w : List (String × β)) (c : String) (newKey : JsValue)
    (hc : changedKeysGet c = some newKey) (hw : (w.lookup c).isSome = true) :
    ((widthCallback w c).lookup newKey.toPropertyKey).isSome = true := by
  have hp := hasProperty_value w c newKey hc
  cases hn : w.lookup newKey.toPropertyKey with
  | some u => simp [widthCallback, hc, hp, hn]
  | none =>
    cases hv : w.lookup c with
    | none => simp [hv] at hw
    | some v => simp [widthCallback, hc, hp, hn, hv, assignKey, List.lookup_append]

theorem foldl_widthCallback_ext (ks : List String) (w : List (String × β)) :
    ∃ ext : List (String × β), ks.foldl widthCallback w = w ++ ext ∧
      ∀ p ∈ ext, w.lookup p.1 = none ∧
        ∃ l ∈ ks, ∃ newKey, changedKeysGet l = some newKey ∧
          newKey.toPropertyKey = p.1 ∧ w.lookup l = some p.2 := by
  induction ks generalizing w with
  | nil => exact ⟨[], by simp, by simp⟩
  | cons c ks ih =>
    rcases widthCallback_cases w c with h | ⟨newKey, v, hc, hn, hv, h⟩
    · obtain ⟨ext, heq, hext⟩ := ih w
      refine ⟨ext, by simp [List.foldl_cons, h, heq], ?_⟩
      intro p hp
      obtain ⟨h1, l, hl, h2⟩ := hext p hp
      exact ⟨h1, l, List.mem_cons_of_mem _ hl, h2⟩
    · obtain ⟨ext, heq, hext⟩ := ih (w ++ [(newKey.toPropertyKey, v)])
      refine ⟨(newKey.toPropertyKey, v) :: ext, by simp [List.foldl_cons, h, heq], ?_⟩
      intro p hp
      rcases List.mem_cons.mp hp with hp | hp
      · subst hp
        exact ⟨hn, c, List.mem_cons_self _ _, newKey, hc, rfl, hv⟩
      · obtain ⟨h1, l, hl, n2, h2, hkey, h3⟩ := hext p hp
        rw [List.lookup_append] at h1 h3
        have h1w : w.lookup p.1 = none := by
          cases hw : w.lookup p.1 with
          | none => rfl
          | some u => simp [hw] at h1
        refine ⟨h1w, l, List.mem_cons_of_mem _ hl, n2, h2, hkey, ?_⟩
        have hne : l ≠ newKey.toPropertyKey := by
          intro hln
          rw [hln, changedKeysGet_value_key _ _ hc] at h2
          exact absurd h2 (by simp)
        have hb : (l == newKey.toPropertyKey) = false := by simpa using hne
        cases hw : w.lookup l with
        | none => simp [hw, List.lookup_cons, hb] at h3
        | some u => simpa [hw] using h3

theorem foldl_widthCallback_mono (ks : List String) (w : List (String × β)) (k : String)
    (h : (w.lookup k).isSome = true) : ((ks.foldl widthCallback w).lookup k).isSome = true := by
  obtain ⟨ext, heq, _⟩ := foldl_widthCallback_ext ks w
  rw [heq, List.lookup_append]
  cases hw : w.lookup k with
  | none => simp [hw] at h
  | some u => simp

theorem foldl_widthCallback_complete (ks : List String) (w : List (String × β))
    (l : String) (newKey : JsValue) (hl : l ∈ ks) (hc : changedKeysGet l = some newKey)
    (hw : (w.lookup l).isSome = true) :
    ((ks.foldl widthCallback w).lookup newKey.toPropertyKey).isSome = true := by
  induction ks generalizing w with
  | nil => simp at hl
  | cons c ks ih =>
    rw [List.foldl_cons]
    rcases List.mem_cons.mp hl with h | h
    · subst h
      exact foldl_widthCallback_mono ks _ _ (widthCallback_adds w l newKey hc hw)
    · exact ih _ h (by simpa using foldl_widthCallback_mono [c] w l hw)

theorem foldl_widthCallback_fixed (ks : List String) (w : List (String × β))
    (h : ∀ c ∈ ks, ∀ n, changedKeysGet c = some n →
      (w.lookup n.toPropertyKey).isSome = true) :
    ks.foldl widthCallback w = w := by
  induction ks with
  | nil => rfl
  | cons c ks ih =>
    have hcw : widthCallback w c = w := by
      cases hc : changedKeysGet c with
      | none => simp [widthCallback, hc]
      | some n =>
        simp [widthCallback, hc, hasProperty_value w c n hc,
          h c (List.mem_cons_self _ _) n hc]
    rw [List.foldl_cons, hcw]
    exact ih (fun c hc => h c (List.mem_cons_of_mem _ hc))

theorem transformColumnWidths_idem (w : List (String × β)) :
    transformColumnWidths (transformColumnWidths w) = transformColumnWidths w := by
  obtain ⟨ext, heq, hext⟩ := foldl_widthCallback_ext (w.map Prod.fst) w
  have hw : transformColumnWidths w = w ++ ext := heq
  conv_lhs => rw [transformColumnWidths]
  apply foldl_widthCallback_fixed
  intro c hc n hn
  rw [hw, List.map_append, List.mem_append] at hc
  rcases hc with hc | hc
  · exact foldl_widthCallback_complete _ w c n hc hn (lookup_isSome_of_mem_keys c w hc)
  · obtain ⟨p, hp, hpc⟩ := List.mem_map.mp hc
    obtain ⟨_, l, _, n2, hl, hkey, _⟩ := hext p hp
    rw [← hpc, ← hkey, changedKeysGet_value_key _ _ hl] at hn
    exact absurd hn (by simp)

/-! ## Lemmas on `settings.set` -/

theorem foldl_setCallback {π ε δ : Type} (update : π → UpdateResult ε δ) (ps : List π) :
    ps.foldl (setCallback update) ([], none)
      = (ps.map (fun p => (update p).docs),
         (ps.filterMap (fun p => (update p).err)).getLast?) := by
  induction ps using List.reverseRecOn with
  | nil => rfl
  | append_singleton l p ih =>
    rw [List.foldl_append, ih]
    cases he : (update p).err with
    | none => simp [setCallback, he, List.filterMap_append]
    | some e => simp [setCallback, he, List.filterMap_append]

theorem transformSortTorrents_idem (s : SortTorrents σ) :
    transformSortTorrents (transformSortTorrents s) = transformSortTorrents s := by
  cases hk : changedKeysGet s.property.toPropertyKey with
  | none => simp [transformSortTorrents, hk]
  | some newKey =>
    simp [transformSortTorrents, hk, changedKeysGet_value_key _ _ hk]

/-! ## The claims on `server/models/settings.js` -/

/-- C4: `transformLegacyKeys` is idempotent. For every settings object, whatever
`sortTorrents`, `torrentDetails` and `torrentListColumnWidths` it holds (any
string ids, the names inherited from `Object.prototype` among them, and the
objects a first pass can store as ids), migrating the migrated object gives the
migrated object again. -/
theorem transformLegacyKeys_idempotent (x : Settings σ α β ρ) :
    transformLegacyKeys (transformLegacyKeys x) = transformLegacyKeys x := by
  obtain ⟨s, d, w, o⟩ := x
  cases s <;> cases d <;> cases w <;>
    simp [transformLegacyKeys, transformSortTorrents_idem, transformTorrentDetails_idem,
      transformColumnWidths_idem]

/-- What the migration of `torrentListColumnWidths` does, with "legacy key" read
as the code reads it (`key in changedKeys`, own or inherited): every key keeps
its value; a key that was absent is present afterwards only as the value of
the table, turned into a string, at a key of the mapping; and for every key
`l` of the mapping with `l in changedKeys` whose `changedKeys[l]` was absent,
that key is present afterwards. -/
theorem transformColumnWidths_additive (w : List (String × β)) :
    (∀ k v, w.lookup k = some v → (transformColumnWidths w).lookup k = some v) ∧
    (∀ k v, w.lookup k = none → (transformColumnWidths w).lookup k = some v →
      ∃ l newKey, changedKeysGet l = some newKey ∧ newKey.toPropertyKey = k ∧
        w.lookup l = some v) ∧
    (∀ l newKey, changedKeysGet l = some newKey → (w.lookup l).isSome = true →
      ((transformColumnWidths w).lookup newKey.toPropertyKey).isSome = true) := by
  obtain ⟨ext, heq, hext⟩ := foldl_widthCallback_ext (w.map Prod.fst) w
  have hw : transformColumnWidths w = w ++ ext := heq
  refine ⟨?_, ?_, ?_⟩
  · intro k v hk
    rw [hw, List.lookup_append, hk]
    rfl
  · intro k v hk hv
    rw [hw, List.lookup_append, hk] at hv
    obtain ⟨_, l, _, newKey, hl, hkey, hlv⟩ := hext _ (lookup_mem k v ext (by simpa using hv))
    exact ⟨l, newKey, hl, hkey, hlv⟩
  · intro l newKey hl hs
    have hl_mem : l ∈ w.map Prod.fst := by
      obtain ⟨v, hv⟩ := Option.isSome_iff_exists.mp hs
      exact List.mem_map.mpr ⟨(l, v), lookup_mem l v w hv, rfl⟩
    exact foldl_widthCallback_complete _ w l newKey hl_mem hl hs

/-- C5, the code at the failing input: the mapping `{toString: 5}`. The name
`toString` is no entry of the table `changedKeys`, but `'toString' in
changedKeys` holds through `Object.prototype`, and the code adds the key
`function toString() { [native code] }` with the value 5. The claim has keys
added only for the legacy keys of the table, so none here. -/
theorem transformColumnWidths_adds_key_for_inherited_name :
    changedKeys.lookup "toString" = none ∧
    transformColumnWidths [("toString", 5)]
      = [("toString", 5), ("function toString() \x7b [native code] \x7d", 5)] ∧
    (∀ p ∈ changedKeys, p.2 ≠ "function toString() \x7b [native code] \x7d") := by
  decide

/-- What the migration of `torrentDetails` does, with "legacy key" read as the
code reads it (`id in changedKeys`, own or inherited). With `mutated` the array
after the in-place pass (same length as the input), the result is `mutated`
without the items whose id is removed, in the original order. The item at
index `i` keeps everything but its id; when `changedKeys[id]` exists, the id
becomes that value if no item of the list as it stands when the item is
processed (the items before `i` as already mutated, then the original items
from `i` on) has it as id, and the item is unchanged otherwise; an item whose
id is not `in changedKeys` is unchanged. -/
theorem transformTorrentDetails_items (details : List (DetailItem α)) :
    (reduceTorrentDetails details).1.length = details.length ∧
    transformTorrentDetails details
      = (reduceTorrentDetails details).1.filter (fun it => !it.id.isRemoved) ∧
    (∀ it ∈ transformTorrentDetails details, it.id ≠ .str "freeDiskSpace") ∧
    (∀ i x, details[i]? = some x →
      ∃ y, (reduceTorrentDetails details).1[i]? = some y ∧ y.rest = x.rest ∧
        (∀ newKey, changedKeysGet x.id.toPropertyKey = some newKey →
          ((∀ it ∈ (reduceTorrentDetails details).1.take i ++ details.drop i,
              it.id ≠ newKey) → y.id = newKey) ∧
          ((∃ it ∈ (reduceTorrentDetails details).1.take i ++ details.drop i,
              it.id = newKey) → y = x)) ∧
        (changedKeysGet x.id.toPropertyKey = none → y = x)) := by
  obtain ⟨hlen, hacc, hidx⟩ := reduceTorrentDetails_spec details
  refine ⟨hlen, hacc, ?_, ?_⟩
  · intro it hit hid
    unfold transformTorrentDetails at hit
    rw [hacc] at hit
    have h2 := (List.mem_filter.mp hit).2
    rw [hid] at h2
    exact absurd h2 (by decide)
  · intro i x hx
    exact ⟨_, hidx i x hx, renameDetailItem_cases _ x⟩

/-- C6, the code at the failing input: the list with the one item of id
`toString`. The id is no legacy key of the table `changedKeys` and is not
removed, but `'toString' in changedKeys` holds through `Object.prototype` and
no item has the id `changedKeys['toString']`: the code replaces the id by the
inherited function, where the claim has the item returned unchanged. -/
theorem transformTorrentDetails_rewrites_inherited_name :
    changedKeys.lookup "toString" = none ∧
    removedKeys.contains "toString" = false ∧
    transformTorrentDetails [(⟨.str "toString", true⟩ : DetailItem Bool)]
      = [⟨.inherited .objToString, true⟩] ∧
    transformTorrentDetails [(⟨.str "toString", true⟩ : DetailItem Bool)]
      ≠ [⟨.str "toString", true⟩] := by
  decide

/-- For a non-empty batch `settings.set` calls `callback(docsResponse)` with the
array still empty and no error, whatever the upserts do; the results and the
last error only reach `docsResponse` and `error` afterwards. -/
theorem settingsSet_callback {π ε δ : Type} (update : π → UpdateResult ε δ)
    (payloads : Payloads π) (h : payloads.toList ≠ []) :
    (settingsSet update payloads).callback = .success [] ∧
    (settingsSet update payloads).docsResponse
      = payloads.toList.map (fun p => (update p).docs) ∧
    (settingsSet update payloads).error
      = (payloads.toList.filterMap (fun p => (update p).err)).getLast? := by
  simp [settingsSet, h, foldl_setCallback]

/-- C8, the code at the failing input: a batch of two entries, the upsert of
the first fails with `e1`, the second succeeds. `callback` is called before
either update has completed, with the empty `docsResponse` and no error, where
the claim has it receive `e1`; `error` is only set to `e1` afterwards. -/
theorem settingsSet_reports_no_error :
    (exampleUpdate 1).err = some "e1" ∧ (exampleUpdate 2).err = none ∧
    (settingsSet exampleUpdate (.array [1, 2])).callback = .success [] ∧
    (settingsSet exampleUpdate (.array [1, 2])).callback ≠ .failure "e1" ∧
    (settingsSet exampleUpdate (.array [1, 2])).error = some "e1" := by
  decide

/-! ## The claims on `server/routes/auth.js` -/

/-- In enforced mode `POST /authenticate` issues the token exactly when
`isMatch` is not `null` and there is no error, whatever the value of `isMatch`. -/
theorem postAuthenticate_enforced (env : Env) (comparePassword : Credentials → CompareResult)
    (req : Request) (h : env.config.disableUsersAndAuth = false) :
    postAuthenticate env comparePassword req =
      if ((comparePassword ⟨req.body.password, req.body.username⟩).isMatch.isSome
          && (comparePassword ⟨req.body.password, req.body.username⟩).err.isNone) = true then
        setAuthToken env {} req.body.username
          (comparePassword ⟨req.body.password, req.body.username⟩).isAdmin
      else { status := 401, body := some (.message "Failed login.") } := by
  simp [postAuthenticate, h, failedLoginResponse]

/-- The guard of line 70 tests `isMatch` for `null`, not for `true`: were the
callback handed `isMatch = false` with no error, the route would answer 200
with the success body and the `jwt` cookie. -/
theorem postAuthenticate_guard_tests_null :
    exampleEnv.config.disableUsersAndAuth = false ∧
    postAuthenticate exampleEnv
        (fun _ => { isMatch := some false, isAdmin := some false, err := none })
        { body := { username := some "alice", password := some "wrong" } }
      = { status := 200
          cookies := [{ name := "jwt", value := "tok.alice", expires := 604801000,
                        httpOnly := true, sameSite := "Strict" }]
          body := some (.authSuccess true "JWT tok.alice" (some "alice") (some false)) } := by
  decide

/-- C1: `POST /authenticate` in enforced mode, for every request and every
report of `comparePassword`. On a match the route issues the token for the
submitted username with the reported admin flag and sets the `jwt` cookie; on a
non-match and on a lookup failure it answers the generic 401 "Failed login."
and sets no cookie. So the `jwt` cookie is set if and only if a match was
reported. -/
theorem postAuthenticate_token_iff_matched (env : Env)
    (comparePassword : Credentials → CompareOutcome) (req : Request)
    (h : env.config.disableUsersAndAuth = false) :
    (∀ isAdmin, comparePassword ⟨req.body.password, req.body.username⟩ = .matched isAdmin →
      postAuthenticate env (fun c => (comparePassword c).callbackArguments) req
        = setAuthToken env {} req.body.username (some isAdmin)) ∧
    (comparePassword ⟨req.body.password, req.body.username⟩ = .notMatched →
      postAuthenticate env (fun c => (comparePassword c).callbackArguments) req
        = { status := 401, cookies := [], body := some (.message "Failed login.") }) ∧
    (∀ err, comparePassword ⟨req.body.password, req.body.username⟩ = .lookupFailure err →
      postAuthenticate env (fun c => (comparePassword c).callbackArguments) req
        = { status := 401, cookies := [], body := some (.message "Failed login.") }) ∧
    ((∃ c ∈ (postAuthenticate env (fun c => (comparePassword c).callbackArguments)
          req).cookies, c.name = "jwt") ↔
      ∃ isAdmin, comparePassword ⟨req.body.password, req.body.username⟩
        = .matched isAdmin) := by
  cases hc : comparePassword ⟨req.body.password, req.body.username⟩ with
  | matched isAdmin =>
    simp [postAuthenticate, h, hc, CompareOutcome.callbackArguments, setAuthToken]
  | notMatched =>
    simp [postAuthenticate, h, hc, CompareOutcome.callbackArguments, failedLoginResponse]
  | lookupFailure err =>
    simp [postAuthenticate, h, hc, CompareOutcome.callbackArguments, failedLoginResponse]

/-- Witness of C1: `alice` submits a wrong password, a non-match is reported. -/
theorem postAuthenticate_token_iff_matched_witness :
    exampleEnv.config.disableUsersAndAuth = false ∧
    postAuthenticate exampleEnv (fun _ => (CompareOutcome.notMatched).callbackArguments)
        { body := { username := some "alice", password := some "wrong" } }
      = { status := 401, cookies := [], body := some (.message "Failed login.") } :=
  ⟨rfl, (postAuthenticate_token_iff_matched exampleEnv (fun _ => .notMatched)
    { body := { username := some "alice", password := some "wrong" } } rfl).2.1 rfl⟩

/-- C2, the code at the failing input: the admin `alice` deletes `bob`. The
destroy hook is called once, with the record of the requester `alice`, where
the claim has the record of `bob`, the user being deleted. -/
theorem deleteUser_destroys_requester_services :
    (deleteUserRequest exampleEnv (fun _ => none)
        { token := some "tok.alice", paramsUsername := "bob", user := some alice }).effects
      = [.removeUser "bob", .destroyUserServices (some alice)] ∧
    findUser [alice, bob] "bob" = some bob ∧
    some alice ≠ findUser [alice, bob] "bob" := by
  decide

/-- C3, the code at the failing input: one user exists and the request to
`POST /register` carries the valid token of the admin `alice`. The middleware
neither calls `next()` nor answers, so `createUser` is not called, where the
claim has the request let through to `createUser`. -/
theorem register_with_admin_token_not_let_through :
    exampleEnv.config.disableUsersAndAuth = false ∧
    exampleVerifyToken "tok.alice" = some alice ∧ alice.isAdmin = true ∧
    registerRequest exampleEnv [alice] exampleVerifyToken (fun _ => none)
        { token := some "tok.alice"
          body := { username := some "carol", password := some "pw" } }
      = { effects := [], response := none } := by
  decide

/-- In enforced mode a request to `POST /register` reaches `createUser` exactly
when no user record exists, whatever token it carries. -/
theorem registerRequest_reaches_createUser (env : Env) (users : List User)
    (verifyToken : String → Option User) (createUserError : NewUser → Option String)
    (req : Request) (h : env.config.disableUsersAndAuth = false) :
    (∃ user, Effect.createUser user ∈
        (registerRequest env users verifyToken createUserError req).effects) ↔ users = [] := by
  cases users with
  | nil => simp [registerRequest, registerGate, initialUserGate, postRegister, h]
  | cons u us => simp [registerRequest, registerGate, initialUserGate]

/-- C7, the code at the failing input: a `PATCH` body that sets only `isAdmin`,
for the user `bob` who is reached over a socket. The patch handed to
`updateUser` sets `socketPath` to `null` although the body supplies no host or
port, and `bob` is left with no connection form, where the claim has no change
to the connection fields. -/
theorem patchUser_isAdmin_only_clears_socketPath :
    userPatchOf { isAdmin := some true }
      = { username := .absent, password := .absent, host := .absent, port := .absent,
          socketPath := .null, isAdmin := .value true } ∧
    (patchUser (fun _ => .ok bob)
        { paramsUsername := "bob", body := { isAdmin := some true } }).effects.head?
      = some (.updateUser "bob" (userPatchOf { isAdmin := some true })) ∧
    bob.oneConnectionForm = true ∧
    applyUserPatch bob (userPatchOf { isAdmin := some true })
      = { bob with isAdmin := true, socketPath := none } ∧
    (applyUserPatch bob (userPatchOf { isAdmin := some true })).oneConnectionForm = false := by
  decide

/-- The patch sets `host` and `port` to `null` exactly when the body has a
non-empty `socketPath`, and sets `socketPath` to `null` in every other case. -/
theorem userPatchOf_nulls (body : RequestBody) :
    ((userPatchOf body).host = .null ↔ ∃ path, body.socketPath = some path ∧ path ≠ "") ∧
    ((userPatchOf body).port = .null ↔ ∃ path, body.socketPath = some path ∧ path ≠ "") ∧
    ((userPatchOf body).socketPath = .null ↔
      ¬ ∃ path, body.socketPath = some path ∧ path ≠ "") := by
  obtain ⟨u, pw, h, p, sp, a⟩ := body
  cases sp with
  | none => cases h <;> cases p <;> simp [userPatchOf, Field.ofOption]
  | some path =>
    by_cases hp : path = ""
    · cases h <;> cases p <;> simp [userPatchOf, Field.ofOption, hp]
    · cases h <;> cases p <;> simp [userPatchOf, Field.ofOption, hp]

/-- C9, as the code has it: `setAuthToken` adds one cookie named `jwt`,
`httpOnly`, `SameSite` `Strict`, expiring 604800 seconds (604800000 ms) after
the issuance time, whose value is the signed token itself; the token is signed
with expiry 604800 seconds, and the form `"JWT <token>"` is the `token` field
of the response body. -/
theorem setAuthToken_cookie (env : Env) (res : Response) (username : Option String)
    (isAdmin : Option Bool) :
    (setAuthToken env res username isAdmin).cookies
      = res.cookies ++
        [{ name := "jwt", value := env.sign username env.config.secret 604800,
           expires := env.now + 604800 * 1000, httpOnly := true, sameSite := "Strict" }] ∧
    (setAuthToken env res username isAdmin).body
      = some (.authSuccess true ("JWT " ++ env.sign username env.config.secret 604800)
          username isAdmin) ∧
    (setAuthToken env res username isAdmin).status = res.status := by
  simp [setAuthToken]

/-- C9 as stated fails: for `alice` the signed token is `tok.alice`, and the
value of the `jwt` cookie is `tok.alice`, not `JWT tok.alice`. -/
theorem setAuthToken_cookie_value_counterexample :
    exampleEnv.sign (some "alice") exampleEnv.config.secret 604800 = "tok.alice" ∧
    (setAuthToken exampleEnv {} (some "alice") (some true)).cookies.map (fun c => c.value)
      = ["tok.alice"] ∧
    (setAuthToken exampleEnv {} (some "alice") (some true)).cookies.map (fun c => c.value)
      ≠ ["JWT " ++ exampleEnv.sign (some "alice") exampleEnv.config.secret 604800] := by
  decide

/-- C10: `GET /verify` in enforced mode. With zero user records the route
answers any request, token or not, with `initialUser = true`. With at least one
user record the route is reached only through token verification: a request
whose token verifies to user `u` gets `initialUser = false` with the username
and admin flag of `u`, any other request is rejected by the middleware. So a
request without a token reaches the route if and only if zero users exist. -/
theorem verify_enforced (env : Env) (users : List User)
    (verifyToken : String → Option User) (req : Request)
    (h : env.config.disableUsersAndAuth = false) :
    (users = [] →
      verifyRequest env users verifyToken req
        = { response := some { body := some (.verify (some true)
              (req.user.map (fun u => u.username)) (req.user.map (fun u => u.isAdmin))) } }) ∧
    (users ≠ [] → ∀ u, req.token.bind verifyToken = some u →
      verifyRequest env users verifyToken req
        = { response := some { body := some (.verify (some false)
              (some u.username) (some u.isAdmin)) } }) ∧
    (users ≠ [] → req.token.bind verifyToken = none →
      verifyGate env users verifyToken req
        = .respond { status := 401, body := some (.text "Unauthorized") }) ∧
    (req.token = none →
      ((∃ req1, verifyGate env users verifyToken req = .next req1) ↔ users = [])) := by
  refine ⟨?_, ?_, ?_, ?_⟩
  · intro hu
    subst hu
    simp [verifyRequest, verifyGate, initialUserGate, getVerify, h]
  · intro hu u hv
    cases users with
    | nil => exact absurd rfl hu
    | cons a l =>
      simp [verifyRequest, verifyGate, initialUserGate, passportAuthenticateJwt, getVerify,
        h, hv]
  · intro hu hv
    cases users with
    | nil => exact absurd rfl hu
    | cons a l =>
      simp [verifyGate, initialUserGate, passportAuthenticateJwt, h, hv]
  · intro ht
    cases users with
    | nil => simp [verifyGate, initialUserGate, h]
    | cons a l => simp [verifyGate, initialUserGate, passportAuthenticateJwt, h, ht]

/-- Witness of C10: one user exists and the request carries the token of `alice`. -/
theorem verify_enforced_witness :
    exampleEnv.config.disableUsersAndAuth = false ∧
    verifyRequest exampleEnv [alice] exampleVerifyToken { token := some "tok.alice" }
      = { response := some { body := some (.verify (some false) (some "alice")
            (some true)) } } :=
  ⟨rfl, (verify_enforced exampleEnv [alice] exampleVerifyToken { token := some "tok.alice" }
    rfl).2.1 (by decide) alice (by decide)⟩

end Flood
